import Mathlib

set_option autoImplicit false

namespace Accounting

/-- Transaction kinds, from `TransactionType` in src/user.rs. -/
inductive TransactionType
  | Deposit
  | Withdrawal
  | Dispute
  | Resolve
  | Chargeback
  deriving DecidableEq

/-- An input record, from `TransactionRequset` in src/user.rs.  The source's
`amount: Option<f64>` is modelled with exact rationals in place of `f64`. -/
structure TransactionRequset where
  type : TransactionType
  client : Nat
  tx : Nat
  amount : Option Rat
  deriving DecidableEq

/-- State of a stored transaction, from `TransactionState` in src/user.rs. -/
inductive TransactionState
  | Normal
  | Disputed
  | Chargedback
  deriving DecidableEq

/-- A stored ledger entry, from `Transatcion` in src/user.rs. -/
structure Transatcion where
  tx_type : TransactionType
  amount : Rat
  state : TransactionState
  deriving DecidableEq

/-- Account balances, from `Account` in src/user.rs. -/
structure Account where
  total : Rat
  held : Rat
  deriving DecidableEq

/-- `Account::avalible` in src/user.rs: `self.total - self.held`. -/
def Account.avalible (a : Account) : Rat := a.total - a.held

/-- Lookup in an association list keyed by `Nat`; models `HashMap::get`. -/
def alist.lookup {α : Type} : List (Nat × α) → Nat → Option α
  | [], _ => none
  | (k, v) :: rest, key => if k = key then some v else alist.lookup rest key

/-- Models `HashMap::contains_key`. -/
def alist.containsKey {α : Type} (m : List (Nat × α)) (key : Nat) : Bool :=
  (alist.lookup m key).isSome

/-- Insert-or-replace; models both `HashMap::insert` and in-place mutation of
the value behind `HashMap::get_mut`. -/
def alist.insert {α : Type} : List (Nat × α) → Nat → α → List (Nat × α)
  | [], key, v => [(key, v)]
  | (k, w) :: rest, key, v =>
      if k = key then (key, v) :: rest else (k, w) :: alist.insert rest key v

/-- Per-client ledger, from `User` in src/user.rs.  The
`HashMap<u32, Transatcion>` history is modelled as an association list. -/
structure User where
  id : Nat
  account : Account
  tx_history : List (Nat × Transatcion)
  frozen : Bool
  deriving DecidableEq

/-- Error kinds.  The source returns distinct free-form `String` messages; each
distinct message site is modelled as one constructor.  `InvalidStateTransition`
stands for the "Transaction can't be dispputed/resolved" messages shared by
dispute, resolve and chargeback on a wrong-state entry. -/
inductive Err
  | AccountFrozen
  | DuplicateTransactionId
  | InvalidAmount
  | InsufficientFunds
  | UnknownTransaction
  | InvalidStateTransition
  deriving DecidableEq

/-- `User::process_deposit` in src/user.rs.  `&mut self` is modelled by
returning the updated `User` alongside the `Result`. -/
def User.process_deposit (u : User) (tx : TransactionRequset) :
    Except Err Unit × User :=
  if alist.containsKey u.tx_history tx.tx then (.error .DuplicateTransactionId, u)
  else
    match tx.amount with
    | none => (.error .InvalidAmount, u)
    | some a =>
        if a = 0 then (.error .InvalidAmount, u)
        else
          (.ok (),
            { u with
              tx_history := alist.insert u.tx_history tx.tx ⟨tx.type, a, .Normal⟩,
              account := { u.account with total := u.account.total + a } })

/-- `User::process_withdrawal` in src/user.rs. -/
def User.process_withdrawal (u : User) (tx : TransactionRequset) :
    Except Err Unit × User :=
  if alist.containsKey u.tx_history tx.tx then (.error .DuplicateTransactionId, u)
  else
    match tx.amount with
    | none => (.error .InvalidAmount, u)
    | some a =>
        if a = 0 then (.error .InvalidAmount, u)
        else if a > u.account.avalible then (.error .InsufficientFunds, u)
        else
          (.ok (),
            { u with
              tx_history := alist.insert u.tx_history tx.tx ⟨tx.type, a, .Normal⟩,
              account := { u.account with total := u.account.total - a } })

/-- `User::process_dispute` in src/user.rs. -/
def User.process_dispute (u : User) (tx : TransactionRequset) :
    Except Err Unit × User :=
  match alist.lookup u.tx_history tx.tx with
  | none => (.error .UnknownTransaction, u)
  | some old =>
      if old.state ≠ TransactionState.Normal then (.error .InvalidStateTransition, u)
      else
        (.ok (),
          { u with
            tx_history := alist.insert u.tx_history tx.tx { old with state := .Disputed },
            account := { u.account with held := u.account.held + old.amount } })

/-- `User::process_resolve` in src/user.rs. -/
def User.process_resolve (u : User) (tx : TransactionRequset) :
    Except Err Unit × User :=
  match alist.lookup u.tx_history tx.tx with
  | none => (.error .UnknownTransaction, u)
  | some old =>
      if old.state ≠ TransactionState.Disputed then (.error .InvalidStateTransition, u)
      else
        (.ok (),
          { u with
            tx_history := alist.insert u.tx_history tx.tx { old with state := .Normal },
            account := { u.account with held := u.account.held - old.amount } })

/-- `User::process_chargeback` in src/user.rs. -/
def User.process_chargeback (u : User) (tx : TransactionRequset) :
    Except Err Unit × User :=
  match alist.lookup u.tx_history tx.tx with
  | none => (.error .UnknownTransaction, u)
  | some old =>
      if old.state ≠ TransactionState.Disputed then (.error .InvalidStateTransition, u)
      else
        (.ok (),
          { u with
            tx_history :=
              alist.insert u.tx_history tx.tx { old with state := .Chargedback },
            account :=
              { total := u.account.total - old.amount,
                held := u.account.held - old.amount },
            frozen := true })

/-- `User::process_tx` in src/user.rs: the frozen guard, then dispatch on the
record kind. -/
def User.process_tx (u : User) (tx : TransactionRequset) :
    Except Err Unit × User :=
  if u.frozen then (.error .AccountFrozen, u)
  else
    match tx.type with
    | .Deposit => u.process_deposit tx
    | .Withdrawal => u.process_withdrawal tx
    | .Dispute => u.process_dispute tx
    | .Resolve => u.process_resolve tx
    | .Chargeback => u.process_chargeback tx

/-- Sequential application of a list of records to one account, i.e. repeated
`User::process_tx` calls in order. -/
def User.processList (u : User) : List TransactionRequset → User
  | [] => u
  | tx :: rest => User.processList (u.process_tx tx).2 rest

/-- The account registry, from `Engine` in src/engine.rs, with the
`HashMap<u16, User>` modelled as an association list. -/
structure Engine where
  users : List (Nat × User)
  deriving DecidableEq

/-- The fresh `User` literal built in `Engine::process_tx` for a client id not
yet in the map: zero balances, empty history, not frozen. -/
def freshUser (client : Nat) : User :=
  { id := client,
    account := { total := 0, held := 0 },
    tx_history := [],
    frozen := false }

/-- `Engine::process_tx` in src/engine.rs.  The source gets the client's entry
(inserting a fresh `User` when absent) and then runs `User::process_tx` on it
in place; here that is rendered as lookup-or-fresh followed by writing the
resulting user back under the client id. -/
def Engine.process_tx (e : Engine) (tx : TransactionRequset) :
    Except Err Unit × Engine :=
  let u :=
    match alist.lookup e.users tx.client with
    | some v => v
    | none => freshUser tx.client
  let r := u.process_tx tx
  (r.1, { users := alist.insert e.users tx.client r.2 })

/-! ### Association-list lemmas -/

theorem alist.lookup_insert_self {α : Type} (m : List (Nat × α)) (k : Nat) (v : α) :
    alist.lookup (alist.insert m k v) k = some v := by
  induction m with
  | nil => simp [alist.insert, alist.lookup]
  | cons hd tl ih =>
      obtain ⟨k1, w⟩ := hd
      by_cases h : k1 = k <;> simp [alist.insert, alist.lookup, h, ih]

theorem alist.lookup_insert_ne {α : Type} (m : List (Nat × α)) (k k2 : Nat) (v : α)
    (h : k2 ≠ k) :
    alist.lookup (alist.insert m k v) k2 = alist.lookup m k2 := by
  induction m with
  | nil => simp [alist.insert, alist.lookup, Ne.symm h]
  | cons hd tl ih =>
      obtain ⟨k1, w⟩ := hd
      by_cases h1 : k1 = k
      · subst h1
        simp [alist.insert, alist.lookup, Ne.symm h]
      · simp [alist.insert, alist.lookup, h1, ih]

theorem alist.insert_lookup_eq {α : Type} (m : List (Nat × α)) (k : Nat) (v : α)
    (h : alist.lookup m k = some v) :
    alist.insert m k v = m := by
  induction m with
  | nil => simp [alist.lookup] at h
  | cons hd tl ih =>
      obtain ⟨k1, w⟩ := hd
      by_cases h1 : k1 = k
      · subst h1
        simp [alist.lookup] at h
        simp [alist.insert, h]
      · simp [alist.lookup, h1] at h
        simp [alist.insert, h1, ih h]

theorem alist.insert_insert {α : Type} (m : List (Nat × α)) (k : Nat) (v w : α) :
    alist.insert (alist.insert m k v) k w = alist.insert m k w := by
  induction m with
  | nil => simp [alist.insert]
  | cons hd tl ih =>
      obtain ⟨k1, x⟩ := hd
      by_cases h1 : k1 = k <;> simp [alist.insert, h1, ih]

theorem alist.containsKey_false {α : Type} (m : List (Nat × α)) (k : Nat)
    (h : alist.lookup m k = none) :
    alist.containsKey m k = false := by
  simp [alist.containsKey, h]

/-! ### Errors leave the user unchanged (shared helper lemmas) -/

theorem process_deposit_of_err (u : User) (tx : TransactionRequset) (e : Err)
    (h : (User.process_deposit u tx).1 = .error e) :
    User.process_deposit u tx = (.error e, u) := by
  cases hc : alist.containsKey u.tx_history tx.tx with
  | true => simp_all [User.process_deposit]
  | false =>
      cases ha : tx.amount with
      | none => simp_all [User.process_deposit]
      | some a =>
          by_cases hz : a = 0 <;> simp_all [User.process_deposit]

theorem process_withdrawal_of_err (u : User) (tx : TransactionRequset) (e : Err)
    (h : (User.process_withdrawal u tx).1 = .error e) :
    User.process_withdrawal u tx = (.error e, u) := by
  cases hc : alist.containsKey u.tx_history tx.tx with
  | true => simp_all [User.process_withdrawal]
  | false =>
      cases ha : tx.amount with
      | none => simp_all [User.process_withdrawal]
      | some a =>
          by_cases hz : a = 0
          · simp_all [User.process_withdrawal]
          · by_cases hgt : a > u.account.avalible <;>
              simp_all [User.process_withdrawal]

theorem process_dispute_of_err (u : User) (tx : TransactionRequset) (e : Err)
    (h : (User.process_dispute u tx).1 = .error e) :
    User.process_dispute u tx = (.error e, u) := by
  cases hl : alist.lookup u.tx_history tx.tx with
  | none => simp_all [User.process_dispute]
  | some old =>
      by_cases hs : old.state = TransactionState.Normal <;>
        simp_all [User.process_dispute]

theorem process_resolve_of_err (u : User) (tx : TransactionRequset) (e : Err)
    (h : (User.process_resolve u tx).1 = .error e) :
    User.process_resolve u tx = (.error e, u) := by
  cases hl : alist.lookup u.tx_history tx.tx with
  | none => simp_all [User.process_resolve]
  | some old =>
      by_cases hs : old.state = TransactionState.Disputed <;>
        simp_all [User.process_resolve]

theorem process_chargeback_of_err (u : User) (tx : TransactionRequset) (e : Err)
    (h : (User.process_chargeback u tx).1 = .error e) :
    User.process_chargeback u tx = (.error e, u) := by
  cases hl : alist.lookup u.tx_history tx.tx with
  | none => simp_all [User.process_chargeback]
  | some old =>
      by_cases hs : old.state = TransactionState.Disputed <;>
        simp_all [User.process_chargeback]

theorem process_tx_of_err (u : User) (tx : TransactionRequset) (e : Err)
    (h : (User.process_tx u tx).1 = .error e) :
    User.process_tx u tx = (.error e, u) := by
  cases hf : u.frozen with
  | true => simp_all [User.process_tx]
  | false =>
      cases ht : tx.type <;>
        simp_all [User.process_tx, process_deposit_of_err, process_withdrawal_of_err,
          process_dispute_of_err, process_resolve_of_err, process_chargeback_of_err]

/-! ### Claim theorems -/

/-- State after deposit 5 (tx 1) into a fresh account. -/
def c1u1 : User := (User.process_tx (freshUser 1) ⟨.Deposit, 1, 1, some 5⟩).2

/-- State after then withdrawing 5 (tx 2). -/
def c1u2 : User := (User.process_tx c1u1 ⟨.Withdrawal, 1, 2, some 5⟩).2

/-- State after then disputing tx 1. -/
def c1u3 : User := (User.process_tx c1u2 ⟨.Dispute, 1, 1, none⟩).2

/-- C1: the invariant `held <= total` claimed to hold after every successful
operation is violated by the code.  Deposit 5 (tx 1), withdraw 5 (tx 2), then
dispute tx 1: all three operations succeed, yet the resulting account has
`held = 5` and `total = 0`, so `held <= total` fails (while
`avalible = total - held` does hold, being true by definition). -/
theorem held_le_total_invariant_fails :
    (User.process_tx (freshUser 1) ⟨.Deposit, 1, 1, some 5⟩).1 = Except.ok () ∧
    (User.process_tx c1u1 ⟨.Withdrawal, 1, 2, some 5⟩).1 = Except.ok () ∧
    (User.process_tx c1u2 ⟨.Dispute, 1, 1, none⟩).1 = Except.ok () ∧
    c1u3.account.held = 5 ∧ c1u3.account.total = 0 ∧
    c1u3.account.avalible = c1u3.account.total - c1u3.account.held ∧
    ¬ c1u3.account.held ≤ c1u3.account.total := by
  refine ⟨?_, ?_, ?_, ?_, ?_, rfl, ?_⟩ <;>
    norm_num [c1u1, c1u2, c1u3, freshUser, User.process_tx, User.process_deposit,
      User.process_withdrawal, User.process_dispute, alist.containsKey,
      alist.lookup, alist.insert, Account.avalible]

/-- C3: a frozen account rejects every record with `AccountFrozen` and is left
unchanged, so in particular it remains frozen (indeed entirely unchanged)
after every subsequent list of applied records. -/
theorem frozen_guard_permanent (u : User) (h : u.frozen = true) :
    (∀ tx : TransactionRequset, User.process_tx u tx = (.error .AccountFrozen, u)) ∧
    (∀ recs : List TransactionRequset, User.processList u recs = u) := by
  have h1 : ∀ tx : TransactionRequset,
      User.process_tx u tx = (.error .AccountFrozen, u) := by
    intro tx
    simp [User.process_tx, h]
  refine ⟨h1, ?_⟩
  intro recs
  induction recs with
  | nil => rfl
  | cons tx rest ih => simp [User.processList, h1 tx, ih]

theorem frozen_guard_permanent_witness :
    User.process_tx ⟨1, ⟨5, 0⟩, [], true⟩ ⟨.Deposit, 1, 1, some 3⟩ =
      (.error .AccountFrozen, ⟨1, ⟨5, 0⟩, [], true⟩) ∧
    User.processList ⟨1, ⟨5, 0⟩, [], true⟩
      [⟨.Deposit, 1, 1, some 3⟩, ⟨.Withdrawal, 1, 2, some 1⟩] =
      ⟨1, ⟨5, 0⟩, [], true⟩ :=
  ⟨(frozen_guard_permanent ⟨1, ⟨5, 0⟩, [], true⟩ rfl).1 _,
   (frozen_guard_permanent ⟨1, ⟨5, 0⟩, [], true⟩ rfl).2 _⟩

/-- C4: whenever `process_tx` fails, the returned user equals the input user —
total, held, frozen flag and transaction history are all unchanged — and
reapplying the identical record immediately afterwards produces the identical
failure. -/
theorem error_unchanged_idempotent (u : User) (tx : TransactionRequset) (e : Err)
    (h : (User.process_tx u tx).1 = .error e) :
    (User.process_tx u tx).2 = u ∧
    User.process_tx (User.process_tx u tx).2 tx = (.error e, u) := by
  have h2 := process_tx_of_err u tx e h
  have hsnd : (User.process_tx u tx).2 = u := by rw [h2]
  exact ⟨hsnd, by rw [hsnd, h2]⟩

theorem error_unchanged_idempotent_witness :
    (User.process_tx (freshUser 1) ⟨.Dispute, 1, 7, none⟩).2 = freshUser 1 ∧
    User.process_tx (User.process_tx (freshUser 1) ⟨.Dispute, 1, 7, none⟩).2
        ⟨.Dispute, 1, 7, none⟩ = (.error .UnknownTransaction, freshUser 1) :=
  error_unchanged_idempotent (freshUser 1) ⟨.Dispute, 1, 7, none⟩ .UnknownTransaction rfl

/-- C7: for a record whose client id is not yet in the registry,
`Engine.process_tx` first creates the fresh zero-balance, empty-history,
unfrozen user, delegates the record to it, returns exactly the delegated
result, and the new account is in the registry afterwards — also when the
delegated call fails. -/
theorem engine_creates_fresh_account (en : Engine) (tx : TransactionRequset)
    (h : alist.lookup en.users tx.client = none) :
    Engine.process_tx en tx =
      ((User.process_tx (freshUser tx.client) tx).1,
        ⟨alist.insert en.users tx.client
          (User.process_tx (freshUser tx.client) tx).2⟩) ∧
    alist.lookup (Engine.process_tx en tx).2.users tx.client =
      some (User.process_tx (freshUser tx.client) tx).2 := by
  have h1 : Engine.process_tx en tx =
      ((User.process_tx (freshUser tx.client) tx).1,
        ⟨alist.insert en.users tx.client
          (User.process_tx (freshUser tx.client) tx).2⟩) := by
    simp [Engine.process_tx, h]
  refine ⟨h1, ?_⟩
  rw [h1]
  exact alist.lookup_insert_self en.users tx.client _

theorem engine_creates_fresh_account_witness :
    alist.lookup (Engine.process_tx ⟨[]⟩ ⟨.Dispute, 3, 9, none⟩).2.users 3 =
      some (User.process_tx (freshUser 3) ⟨.Dispute, 3, 9, none⟩).2 :=
  (engine_creates_fresh_account ⟨[]⟩ ⟨.Dispute, 3, 9, none⟩ rfl).2

/-- C10: `Engine.process_tx` leaves the account of every client other than the
record's own client id completely unchanged. -/
theorem engine_frame_other_clients (en : Engine) (tx : TransactionRequset) (c : Nat)
    (h : c ≠ tx.client) :
    alist.lookup (Engine.process_tx en tx).2.users c = alist.lookup en.users c := by
  simp only [Engine.process_tx]
  exact alist.lookup_insert_ne en.users tx.client c _ h

theorem engine_frame_other_clients_witness :
    alist.lookup
        (Engine.process_tx ⟨[(2, freshUser 2)]⟩ ⟨.Deposit, 1, 1, some 4⟩).2.users 2 =
      alist.lookup [(2, freshUser 2)] 2 :=
  engine_frame_other_clients ⟨[(2, freshUser 2)]⟩ ⟨.Deposit, 1, 1, some 4⟩ 2 (by decide)

/-- C2: on a non-frozen account whose history holds a `Normal` entry under the
record's transaction id, a Dispute succeeds, marks that entry `Disputed`, adds
the entry's amount to `held` — uniformly, whatever the entry's kind, Deposit or
Withdrawal — leaves `total` unchanged, and hence decreases `avalible` by the
entry's amount. -/
theorem dispute_success_spec (u : User) (tx : TransactionRequset) (e : Transatcion)
    (hf : u.frozen = false) (ht : tx.type = TransactionType.Dispute)
    (hl : alist.lookup u.tx_history tx.tx = some e)
    (hs : e.state = TransactionState.Normal) :
    User.process_tx u tx =
      (.ok (),
        { u with
          tx_history := alist.insert u.tx_history tx.tx { e with state := .Disputed },
          account := { u.account with held := u.account.held + e.amount } }) ∧
    alist.lookup (User.process_tx u tx).2.tx_history tx.tx =
      some { e with state := .Disputed } ∧
    (User.process_tx u tx).2.account.total = u.account.total ∧
    (User.process_tx u tx).2.account.avalible = u.account.avalible - e.amount := by
  have h1 : User.process_tx u tx =
      (.ok (),
        { u with
          tx_history := alist.insert u.tx_history tx.tx { e with state := .Disputed },
          account := { u.account with held := u.account.held + e.amount } }) := by
    simp [User.process_tx, hf, ht, User.process_dispute, hl, hs]
  refine ⟨h1, ?_, ?_, ?_⟩ <;> rw [h1]
  · exact alist.lookup_insert_self u.tx_history tx.tx _
  · simp only [Account.avalible]
    ring

theorem dispute_success_spec_witness :
    alist.lookup
        (User.process_tx ⟨1, ⟨5, 0⟩, [(1, ⟨.Withdrawal, 2, .Normal⟩)], false⟩
          ⟨.Dispute, 1, 1, some 9⟩).2.tx_history 1 =
      some ⟨.Withdrawal, 2, .Disputed⟩ :=
  (dispute_success_spec ⟨1, ⟨5, 0⟩, [(1, ⟨.Withdrawal, 2, .Normal⟩)], false⟩
    ⟨.Dispute, 1, 1, some 9⟩ ⟨.Withdrawal, 2, .Normal⟩ rfl rfl rfl rfl).2.1

/-- C5: on a non-frozen account, a Withdrawal with a fresh transaction id and a
present non-zero amount fails with `InsufficientFunds` exactly when the amount
strictly exceeds the current `avalible` balance (an amount equal to `avalible`
succeeds); on success it inserts the `Normal` Withdrawal entry under the id and
decreases `total` by the amount, `held` unchanged. -/
theorem withdrawal_spec (u : User) (tx : TransactionRequset) (a : Rat)
    (hf : u.frozen = false) (ht : tx.type = TransactionType.Withdrawal)
    (hfresh : alist.lookup u.tx_history tx.tx = none)
    (ha : tx.amount = some a) (hz : a ≠ 0) :
    ((User.process_tx u tx).1 = .error .InsufficientFunds ↔ u.account.avalible < a) ∧
    (u.account.avalible < a →
      User.process_tx u tx = (.error .InsufficientFunds, u)) ∧
    (a ≤ u.account.avalible →
      User.process_tx u tx =
        (.ok (),
          { u with
            tx_history := alist.insert u.tx_history tx.tx ⟨.Withdrawal, a, .Normal⟩,
            account := { u.account with total := u.account.total - a } })) := by
  by_cases hgt : u.account.avalible < a
  · have h1 : User.process_tx u tx = (.error .InsufficientFunds, u) := by
      simp [User.process_tx, hf, ht, User.process_withdrawal, alist.containsKey,
        hfresh, ha, hz, hgt]
    refine ⟨?_, fun _ => h1, fun hle => absurd hgt (not_lt.2 hle)⟩
    rw [h1]
    simp [hgt]
  · have h1 : User.process_tx u tx =
        (.ok (),
          { u with
            tx_history := alist.insert u.tx_history tx.tx ⟨.Withdrawal, a, .Normal⟩,
            account := { u.account with total := u.account.total - a } }) := by
      simp [User.process_tx, hf, ht, User.process_withdrawal, alist.containsKey,
        hfresh, ha, hz, hgt]
    refine ⟨?_, fun hc => absurd hc hgt, fun _ => h1⟩
    rw [h1]
    simp [hgt]

theorem withdrawal_spec_witness :
    User.process_tx ⟨1, ⟨10, 0⟩, [], false⟩ ⟨.Withdrawal, 1, 4, some 10⟩ =
      (.ok (), ⟨1, ⟨10 - 10, 0⟩, [(4, ⟨.Withdrawal, 10, .Normal⟩)], false⟩) :=
  (withdrawal_spec ⟨1, ⟨10, 0⟩, [], false⟩ ⟨.Withdrawal, 1, 4, some 10⟩ 10
    rfl rfl rfl rfl (by norm_num)).2.2 (by norm_num [Account.avalible])

/-- C6: a successful Dispute followed by a successful Resolve of the same
transaction is a round trip: the user — balances, history entry back to
`Normal`, frozen flag — equals its state immediately before the Dispute, so in
particular `total`, `held` and `avalible` are restored and a second Dispute of
the same transaction then succeeds. -/
theorem dispute_resolve_roundtrip (u : User) (d r : TransactionRequset) (e : Transatcion)
    (hf : u.frozen = false) (hd : d.type = TransactionType.Dispute)
    (hr : r.type = TransactionType.Resolve) (hid : r.tx = d.tx)
    (hl : alist.lookup u.tx_history d.tx = some e)
    (hs : e.state = TransactionState.Normal) :
    (User.process_tx u d).1 = .ok () ∧
    (User.process_tx (User.process_tx u d).2 r).1 = .ok () ∧
    (User.process_tx (User.process_tx u d).2 r).2 = u ∧
    (User.process_tx (User.process_tx (User.process_tx u d).2 r).2 d).1 = .ok () := by
  have h1 : User.process_tx u d =
      (.ok (),
        { u with
          tx_history := alist.insert u.tx_history d.tx { e with state := .Disputed },
          account := { u.account with held := u.account.held + e.amount } }) := by
    simp [User.process_tx, hf, hd, User.process_dispute, hl, hs]
  have h2 : User.process_tx (User.process_tx u d).2 r =
      (.ok (),
        { u with
          tx_history := alist.insert
            (alist.insert u.tx_history d.tx { e with state := .Disputed }) d.tx
            { e with state := .Normal },
          account :=
            { u.account with held := u.account.held + e.amount - e.amount } }) := by
    rw [h1]
    simp [User.process_tx, hf, hr, User.process_resolve, hid,
      alist.lookup_insert_self]
  have hN : ({ e with state := TransactionState.Normal } : Transatcion) = e := by
    obtain ⟨ek, ea, es⟩ := e
    cases es with
    | Normal => rfl
    | Disputed => simp at hs
    | Chargedback => simp at hs
  have h3 : (User.process_tx (User.process_tx u d).2 r).2 = u := by
    rw [h2]
    show ({ u with
      tx_history := alist.insert
        (alist.insert u.tx_history d.tx { e with state := .Disputed }) d.tx
        { e with state := .Normal },
      account :=
        { u.account with held := u.account.held + e.amount - e.amount } } : User) = u
    rw [alist.insert_insert, hN, alist.insert_lookup_eq u.tx_history d.tx e hl,
      add_sub_cancel_right]
  exact ⟨by rw [h1], by rw [h2], h3, by rw [h3, h1]⟩

theorem dispute_resolve_roundtrip_witness :
    (User.process_tx
        (User.process_tx ⟨1, ⟨5, 0⟩, [(1, ⟨.Deposit, 5, .Normal⟩)], false⟩
          ⟨.Dispute, 1, 1, none⟩).2
        ⟨.Resolve, 1, 1, none⟩).2 =
      ⟨1, ⟨5, 0⟩, [(1, ⟨.Deposit, 5, .Normal⟩)], false⟩ :=
  (dispute_resolve_roundtrip ⟨1, ⟨5, 0⟩, [(1, ⟨.Deposit, 5, .Normal⟩)], false⟩
    ⟨.Dispute, 1, 1, none⟩ ⟨.Resolve, 1, 1, none⟩ ⟨.Deposit, 5, .Normal⟩
    rfl rfl rfl rfl rfl rfl).2.2.1

/-- C8: on a non-frozen account, a Deposit or Withdrawal whose transaction id
already has a history entry fails with `DuplicateTransactionId` whatever the
stored entry's kind (the id space is shared across kinds within an account);
and any failing record — in particular a Withdrawal rejected for insufficient
funds or an invalid amount — leaves the history unchanged, so its id is not
consumed. -/
theorem duplicate_id_shared_space :
    (∀ (u : User) (tx : TransactionRequset) (e : Transatcion),
      u.frozen = false →
      tx.type = TransactionType.Deposit ∨ tx.type = TransactionType.Withdrawal →
      alist.lookup u.tx_history tx.tx = some e →
      User.process_tx u tx = (.error .DuplicateTransactionId, u)) ∧
    (∀ (u : User) (tx : TransactionRequset) (err : Err),
      (User.process_tx u tx).1 = .error err →
      (User.process_tx u tx).2.tx_history = u.tx_history) := by
  constructor
  · rintro u tx e hf (ht | ht) <;> intro hl <;>
      simp [User.process_tx, hf, ht, User.process_deposit, User.process_withdrawal,
        alist.containsKey, hl]
  · intro u tx err h
    rw [process_tx_of_err u tx err h]

theorem duplicate_id_shared_space_witness :
    User.process_tx ⟨1, ⟨3, 0⟩, [(1, ⟨.Withdrawal, 2, .Normal⟩)], false⟩
        ⟨.Deposit, 1, 1, some 4⟩ =
      (.error .DuplicateTransactionId,
        ⟨1, ⟨3, 0⟩, [(1, ⟨.Withdrawal, 2, .Normal⟩)], false⟩) ∧
    (User.process_tx ⟨1, ⟨0, 0⟩, [], false⟩ ⟨.Withdrawal, 1, 1, some 5⟩).2.tx_history =
      ([] : List (Nat × Transatcion)) := by
  constructor
  · exact duplicate_id_shared_space.1 ⟨1, ⟨3, 0⟩, [(1, ⟨.Withdrawal, 2, .Normal⟩)], false⟩
      ⟨.Deposit, 1, 1, some 4⟩ ⟨.Withdrawal, 2, .Normal⟩ rfl (Or.inl rfl) rfl
  · exact duplicate_id_shared_space.2 ⟨1, ⟨0, 0⟩, [], false⟩ ⟨.Withdrawal, 1, 1, some 5⟩
      .InsufficientFunds
      (by norm_num [User.process_tx, User.process_withdrawal, alist.containsKey,
        alist.lookup, Account.avalible])

/-- C9: amount validation on Deposit and Withdrawal rejects only an absent
amount or one exactly equal to zero.  A strictly negative Deposit amount
succeeds and lowers `total` by the amount's magnitude, and a strictly negative
Withdrawal amount passes validation and is compared against `avalible` like any
other amount — negative amounts are never rejected as invalid. -/
theorem negative_amounts_pass_validation (u : User) (tx : TransactionRequset) (a : Rat)
    (hf : u.frozen = false) (hfresh : alist.lookup u.tx_history tx.tx = none)
    (ha : tx.amount = some a) (hneg : a < 0) :
    (tx.type = TransactionType.Deposit →
      User.process_tx u tx =
        (.ok (),
          { u with
            tx_history := alist.insert u.tx_history tx.tx ⟨.Deposit, a, .Normal⟩,
            account := { u.account with total := u.account.total + a } }) ∧
      u.account.total + a = u.account.total - |a| ∧
      u.account.total + a < u.account.total) ∧
    (tx.type = TransactionType.Withdrawal →
      (u.account.avalible < a →
        User.process_tx u tx = (.error .InsufficientFunds, u)) ∧
      (a ≤ u.account.avalible →
        User.process_tx u tx =
          (.ok (),
            { u with
              tx_history := alist.insert u.tx_history tx.tx ⟨.Withdrawal, a, .Normal⟩,
              account := { u.account with total := u.account.total - a } }))) := by
  have hz : a ≠ 0 := ne_of_lt hneg
  constructor
  · intro ht
    refine ⟨?_, ?_, ?_⟩
    · simp [User.process_tx, hf, ht, User.process_deposit, alist.containsKey,
        hfresh, ha, hz]
    · rw [abs_of_neg hneg]
      ring
    · linarith
  · intro ht
    constructor
    · intro hgt
      simp [User.process_tx, hf, ht, User.process_withdrawal, alist.containsKey,
        hfresh, ha, hz, hgt]
    · intro hle
      simp [User.process_tx, hf, ht, User.process_withdrawal, alist.containsKey,
        hfresh, ha, hz, not_lt.2 hle]

theorem negative_amounts_pass_validation_witness :
    (freshUser 1).account.total + (-5 : Rat) < (freshUser 1).account.total ∧
    User.process_tx (freshUser 1) ⟨.Deposit, 1, 1, some (-5)⟩ =
      (.ok (), ⟨1, ⟨0 + (-5), 0⟩, [(1, ⟨.Deposit, -5, .Normal⟩)], false⟩) := by
  have h := (negative_amounts_pass_validation (freshUser 1) ⟨.Deposit, 1, 1, some (-5)⟩
    (-5) rfl rfl rfl (by norm_num)).1 rfl
  exact ⟨h.2.2, h.1⟩

end Accounting
